import Mathlib

/-!
Verification of the streaming transcription pipeline of the
parakeet-FastAPI repository against its natural-language specification.

The definitions below are shallow embeddings of the Python source:

* `consumerScan` embeds the body of the `consumer` coroutine of
  `parakeet_service/stream_routes.py` (lines 49 to 62): one pass over
  `list(results.items())`, sending each entry over the websocket,
  accumulating successfully sent keys in `flushed`, breaking on the first
  send exception, then popping exactly the flushed keys.
* `wsTeardown` embeds the `finally` block of `ws_asr`
  (`stream_routes.py` lines 72 to 74).
* `producerRun` embeds the `producer` coroutine of `ws_asr`
  (`stream_routes.py` lines 16 to 36).
* `extractText`, `processAudioBody` and `transcribeEndpoint` embed the
  one-shot transcription paths of `routes.py`, `main.py` and
  `src/models.py`.
* The batch worker (`parakeet_service/batchworker.py`) and the streaming
  VAD (`parakeet_service/streaming_vad.py`) are imported by the sources
  but their files are not part of the source tree; where a claim depends
  on them they are modelled from the specification, and each such
  definition says so in its doc comment.
-/

/-- An Identity names one utterance: (session id, per-session sequence number).
The consumer code of `stream_routes.py` never inspects the key `p` of a
`results` entry, so the embedding fixes a concrete key type to state the
ownership and ordering claims. -/
abbrev Identity : Type := Nat × Nat

/-- Session id component of an Identity. -/
def sessionOf (p : Identity) : Nat := p.1

/-- Sequence number component of an Identity. -/
def seqOf (p : Identity) : Nat := p.2

/-- The Result Store as the consumer sees it: the iteration order of the
Python dict `results`, which for distinct keys is insertion order. -/
abbrev ResultStore : Type := List (Identity × String)

/-- Outcome of one websocket scan by the `consumer` coroutine. -/
structure ScanState where
  sent : List (Identity × String)
  store : ResultStore
  connected : Bool
  deriving Repr, DecidableEq

/-- The `for p, txt in list(results.items())` loop of `consumer`
(`stream_routes.py` lines 49 to 59): the k-th `ws.send_json` of the scan
returns normally iff `sendOk k = true`; on success the entry joins
`flushed`, on an exception the loop sets `client_connected = False` and
breaks.  Returns the flushed entries in send order, the connected flag,
and the next send index. -/
def scanLoop : ResultStore → Nat → (Nat → Bool) → List (Identity × String) × Bool
  | [], _, _ => ([], true)
  | e :: rest, k, sendOk =>
    if sendOk k then
      let r := scanLoop rest (k + 1) sendOk
      (e :: r.1, r.2)
    else
      ([], false)

/-- One full scan of the `consumer` coroutine (`stream_routes.py` lines 49
to 62): run the send loop over every entry of `results`, then execute
`for p in flushed: results.pop(p, None)`.  The code binds no session id
and filters nothing: the scan body is the same for every session. -/
def consumerScan (store : ResultStore) (sendOk : Nat → Bool) : ScanState :=
  let fl := scanLoop store 0 sendOk
  { sent := fl.1
  , store := store.filter (fun e => !((fl.1.map Prod.fst).contains e.1))
  , connected := fl.2 }

/-- The finally block of `ws_asr` (`stream_routes.py` lines 72 to 74): it sets
`client_connected = False` and logs the close; it performs no operation on
`results`.  The embedding returns the flag it assigns together with the
Result Store it leaves behind. -/
def wsTeardown (store : ResultStore) : Bool × ResultStore := (false, store)

/-- Modelled from the spec: `parakeet_service/batchworker.py` is imported by
`stream_routes.py` and `model.py` but its file is not in the source tree.
Section 4.2 of the spec: on return from inference the worker "writes one
ResultEntry per input item keyed by Identity"; assigning a fresh key into a
Python dict appends it in iteration order. -/
def resultsWrite (store : ResultStore) (e : Identity × String) : ResultStore :=
  store ++ [e]

/-- An utterance as the Work Queue carries it: owning session id, per-session
sequence number, PCM samples and sample rate (spec section 3). -/
structure Utt where
  sid : Nat
  seq : Nat
  samples : List Int
  rate : Nat
  deriving Repr, DecidableEq

/-- Outcome of one utterance: transcribed text or an error message. -/
inductive Outcome where
  | ok (text : String)
  | err (msg : String)
  deriving Repr, DecidableEq

/-- Modelled from the spec: `parakeet_service/batchworker.py` is not in the
source tree.  Section 4.2: the worker calls the inference capability once per
batch; on success it writes one ResultEntry per input item keyed by Identity,
and if the inference call fails, every item in that batch receives an error
outcome rather than being dropped. -/
def processBatch (infer : List Utt → Except String (List String))
    (batch : List Utt) : List (Identity × Outcome) :=
  match infer batch with
  | .ok txts => (batch.zip txts).map (fun p => ((p.1.sid, p.1.seq), Outcome.ok p.2))
  | .error e => batch.map (fun u => ((u.sid, u.seq), Outcome.err e))

/-- Modelled from the spec: the worker loop "must not terminate — it logs the
failure and proceeds to the next batch", so a run over a list of batches
processes every batch in order, whatever each inference call returns. -/
def workerRun (infer : List Utt → Except String (List String))
    (batches : List (List Utt)) : List (List (Identity × Outcome)) :=
  batches.map (processBatch infer)

/-- From `model.py` lifespan (lines 66 to 74): the body performs exactly one
`asyncio.create_task` call, namely `asyncio.create_task(batch_worker(parakeet_model))`
stored in `app.state.worker`; the embedding records the create_task calls of
the lifespan body in order. -/
inductive SpawnedTask where
  | batchWorker
  deriving Repr, DecidableEq

def lifespanTasks : List SpawnedTask := [SpawnedTask.batchWorker]

/-- Events of the worker loop: the start and the return of one inference call. -/
inductive WEvent where
  | callStart (batch : List Utt)
  | callEnd (batch : List Utt)
  deriving Repr, DecidableEq

/-- Modelled from the spec: the worker body is absent from the sources.
Section 4.2: the single worker loop calls the inference capability exactly
once per batch and resumes collecting only after the call returns, so its
event trace is call start, call end, next call start, and so on. -/
def workerTrace : List (List Utt) → List WEvent
  | [] => []
  | b :: bs => WEvent.callStart b :: WEvent.callEnd b :: workerTrace bs

def isStart : WEvent → Bool
  | .callStart _ => true
  | .callEnd _ => false

/-- Number of inference calls started in a trace fragment. -/
def startCount (t : List WEvent) : Nat := (t.filter isStart).length

/-- Number of inference calls returned in a trace fragment. -/
def endCount (t : List WEvent) : Nat := (t.filter (fun e => !isStart e)).length

/-- Inference stub for the C4 witness: fails exactly on two-item batches. -/
def inferFailsPairs : List Utt → Except String (List String) :=
  fun b => if b.length == 2 then Except.error "boom"
           else Except.ok (b.map (fun _ => "t"))

/-- A raw audio frame as the segmenter model sees it: the per-frame
voice-activity decision and the PCM samples. -/
structure Frame where
  voiced : Bool
  samples : List Int
  deriving Repr, DecidableEq

inductive VadMode where
  | silenceMode
  | speechMode
  deriving Repr, DecidableEq

/-- Segmenter state: VAD mode, accumulated speech samples not yet finalized,
and the current run of trailing silent frames. -/
structure VadState where
  mode : VadMode
  buffer : List Int
  silenceRun : Nat
  deriving Repr, DecidableEq

def vadInit : VadState := ⟨VadMode.silenceMode, [], 0⟩

/-- Trailing-silence timeout, in frames (spec: a tunable parameter). -/
def silenceTimeoutFrames : Nat := 2

/-- Maximum chunk cap, in samples (spec: a tunable parameter). -/
def maxChunkSamples : Nat := 16

/-- Modelled from the spec: `parakeet_service/streaming_vad.py` is imported by
`stream_routes.py` but its file is not in the source tree.  Section 4.1: state
machine `{Silence, Speech}`; Silence to Speech on voiced frames; Speech to
Silence after a trailing-silence timeout, which finalizes and emits the
accumulated chunk; a maximum-chunk-duration cap forces a mid-utterance flush
regardless of state; zero-length frames are ignored.  Returns the new state
and the finalized chunks this frame produced. -/
def vadFeed (st : VadState) (f : Frame) : VadState × List (List Int) :=
  if f.samples.isEmpty then (st, [])
  else
    match st.mode with
    | VadMode.silenceMode =>
      if f.voiced then
        if maxChunkSamples ≤ f.samples.length then
          (⟨VadMode.speechMode, [], 0⟩, [f.samples])
        else (⟨VadMode.speechMode, f.samples, 0⟩, [])
      else (st, [])
    | VadMode.speechMode =>
      if f.voiced then
        let buf := st.buffer ++ f.samples
        if maxChunkSamples ≤ buf.length then (⟨VadMode.speechMode, [], 0⟩, [buf])
        else (⟨VadMode.speechMode, buf, 0⟩, [])
      else
        let r := st.silenceRun + 1
        if silenceTimeoutFrames ≤ r then
          (⟨VadMode.silenceMode, [], 0⟩,
            if st.buffer.isEmpty then [] else [st.buffer])
        else (⟨VadMode.speechMode, st.buffer, r⟩, [])

/-- Modelled from the spec: the flush section 4.1 mandates at session close —
"any buffered speech must be flushed as a final utterance regardless of
current VAD state". -/
def vadFlushFinal (st : VadState) : List (List Int) :=
  if st.buffer.isEmpty then [] else [st.buffer]

/-- Events the producer coroutine performs, in program order: receiving a
frame, putting a chunk on the global transcription queue, and sending the
queued acknowledgement. -/
inductive PEvent where
  | recvFrame (f : Frame)
  | enqueue (chunk : List Int)
  | ackQueued
  deriving Repr, DecidableEq

structure ProducerResult where
  events : List PEvent
  vad : VadState
  connected : Bool
  deriving Repr, DecidableEq

/-- The inner loop `for chunk in vad.feed(frame)` of the producer
(`stream_routes.py` lines 22 to 30): each chunk is put on the queue, then the
queued acknowledgement is sent; the k-th acknowledgement send of the run
returns normally iff `ackOk k = true`, and a raising send sets
`client_connected = False` and breaks, dropping the remaining chunks of this
frame.  Returns the events, the connected flag, and the next send index. -/
def chunkLoop : List (List Int) → Nat → (Nat → Bool) → List PEvent × Bool × Nat
  | [], k, _ => ([], true, k)
  | c :: cs, k, ackOk =>
    if ackOk k then
      let r := chunkLoop cs (k + 1) ackOk
      (PEvent.enqueue c :: PEvent.ackQueued :: r.1, r.2)
    else
      ([PEvent.enqueue c], false, k + 1)

/-- The producer coroutine of `ws_asr` (`stream_routes.py` lines 16 to 36):
while connected, receive a frame, feed it to the VAD and run the chunk loop; a
failed acknowledgement ends the outer loop too.  The frame list is the inbound
stream up to the disconnect; when it is exhausted, `receive_bytes` raises
`WebSocketDisconnect`, and the handler only sets `client_connected = False`
and returns — it does not touch the VAD state again and flushes nothing. -/
def producerRun : VadState → List Frame → Nat → (Nat → Bool) → ProducerResult
  | st, [], _, _ => ⟨[], st, false⟩
  | st, f :: fs, k, ackOk =>
    let fd := vadFeed st f
    let cl := chunkLoop fd.2 k ackOk
    if cl.2.1 then
      let rest := producerRun fd.1 fs cl.2.2 ackOk
      ⟨PEvent.recvFrame f :: cl.1 ++ rest.events, rest.vad, rest.connected⟩
    else
      ⟨PEvent.recvFrame f :: cl.1, fd.1, false⟩

/-- Reference trace for the outbound contract of spec section 6: for every
received frame, each utterance the segmenter finalizes is enqueued and then
acknowledged, both before the next frame is read. -/
def chunkEvents : List (List Int) → List PEvent
  | [] => []
  | c :: cs => PEvent.enqueue c :: PEvent.ackQueued :: chunkEvents cs

def specTrace : VadState → List Frame → List PEvent
  | _, [] => []
  | st, f :: fs =>
    PEvent.recvFrame f ::
      (chunkEvents (vadFeed st f).2 ++ specTrace (vadFeed st f).1 fs)

/-- A frame long enough to hit the max-chunk cap and finalize at once. -/
def burstFrame : Frame := ⟨true, List.replicate 16 1⟩

/-- A Python value as the result extraction of the transcription paths sees
it: tuples, lists, result objects (an optional `text` attribute plus the
value's `str()` form), strings, and None. -/
inductive PyVal where
  | tup (xs : List PyVal)
  | lst (xs : List PyVal)
  | obj (text : Option String) (s : String)
  | pstr (s : String)
  | pynone

/-- The `str()` form of a value. -/
def pyStr : PyVal → String
  | PyVal.tup xs =>
    "(" ++ String.intercalate ", " (xs.attach.map (fun x => pyStr x.1)) ++ ")"
  | PyVal.lst xs =>
    "[" ++ String.intercalate ", " (xs.attach.map (fun x => pyStr x.1)) ++ "]"
  | PyVal.obj _ s => s
  | PyVal.pstr s => s
  | PyVal.pynone => "None"
termination_by v => sizeOf v
decreasing_by
  all_goals simp_wf
  all_goals (have h := List.sizeOf_lt_of_mem x.2; omega)

/-- Python truthiness of a value. -/
def truthy : PyVal → Bool
  | PyVal.tup xs => !xs.isEmpty
  | PyVal.lst xs => !xs.isEmpty
  | PyVal.obj _ _ => true
  | PyVal.pstr s => !(s == "")
  | PyVal.pynone => false

/-- `getattr(result, "text", default)`: only result objects carry a text
attribute in this model; `none` means the attribute is absent. -/
def attrText : PyVal → Option String
  | PyVal.obj t _ => t
  | _ => none

/-- Step one of the extraction:
`if isinstance(results, tuple): results = results[0]` — indexing an empty
tuple raises IndexError. -/
def unwrapTuple : PyVal → Except String PyVal
  | PyVal.tup [] => Except.error "tuple index out of range"
  | PyVal.tup (x :: _) => Except.ok x
  | r => Except.ok r

/-- The result extraction exactly as written in `routes.py` lines 83 to 91 and
repeated verbatim in the other two endpoints of `routes.py` and in
`ParakeetModel.infer` and `CanaryModel.infer` of `src/models.py`: unwrap a
tuple, then branch on `isinstance(results, list) and len(results) > 0`, taking
`getattr(results[0], "text", str(results[0]))` in the list branch and
`str(results) if results else ""` otherwise. -/
def extractText (r0 : PyVal) : Except String String :=
  match unwrapTuple r0 with
  | Except.error e => Except.error e
  | Except.ok results =>
    match results with
    | PyVal.lst (x :: _) => Except.ok ((attrText x).getD (pyStr x))
    | r => Except.ok (if truthy r then pyStr r else "")

/-- The extraction as the spec words it: if the result is a tuple it is
replaced by its first element; then if the result is a non-empty list, the
text is the first element's text attribute, or that element's string form when
the attribute is absent; otherwise the text is the string form of the result,
or the empty string when the result is falsy. -/
def specExtractText (r0 : PyVal) : Except String String := do
  let r1 ← match r0 with
    | PyVal.tup xs =>
      match xs.head? with
      | some x => Except.ok x
      | none => Except.error "tuple index out of range"
    | _ => Except.ok r0
  match r1 with
  | PyVal.lst xs =>
    match xs.head? with
    | some x => Except.ok ((attrText x).getD (pyStr x))
    | none => Except.ok (if truthy r1 then pyStr r1 else "")
  | _ => Except.ok (if truthy r1 then pyStr r1 else "")

structure HttpResponse where
  status : Nat
  detail : String
  deriving Repr, DecidableEq

/-- The body-processing prelude shared by the one-shot transcription
endpoints (`routes.py`, `main.py`, and the infer methods of `src/models.py`
they call): `audio_samples = len(audio_data) // 2`, then
`audio_duration = audio_samples / sample_rate` — a zero sample rate raises
ZeroDivisionError — then `torch.frombuffer(audio_data, dtype=torch.int16)`,
which raises when the byte length is not a multiple of two.  On success the
model returns the sample count. -/
def processAudioBody (nbytes : Nat) (sampleRate : Nat) : Except String Nat :=
  if sampleRate == 0 then Except.error "division by zero"
  else if nbytes % 2 != 0 then
    Except.error "buffer size must be a multiple of element size"
  else Except.ok (nbytes / 2)

/-- The exception envelope of every one-shot endpoint: the whole handler body
runs in a try block whose `except Exception as exc` raises
`HTTPException(status_code=422, detail=<endpoint label> + str(exc))`; on
success the handler returns a 200 response carrying the transcription. -/
def transcribeEndpoint (label : String) (nbytes sampleRate : Nat)
    (inferRes : Except String String) : HttpResponse :=
  match processAudioBody nbytes sampleRate with
  | Except.error e => ⟨422, label ++ e⟩
  | Except.ok _ =>
    match inferRes with
    | Except.error e => ⟨422, label ++ e⟩
    | Except.ok t => ⟨200, t⟩

theorem scanLoop_all_ok (store : ResultStore) (k : Nat) (sendOk : Nat → Bool)
    (h : ∀ j, sendOk j = true) : scanLoop store k sendOk = (store, true) := by
  induction store generalizing k with
  | nil => rfl
  | cons e rest ih => simp [scanLoop, h, ih]

theorem filter_not_self_keys (store : ResultStore) :
    store.filter (fun e => !((store.map Prod.fst).contains e.1)) = [] := by
  rw [List.filter_eq_nil_iff]
  intro e he
  have ht : (List.map Prod.fst store).contains e.1 = true :=
    List.elem_eq_true_of_mem (List.mem_map_of_mem Prod.fst he)
  simp [ht]
  exact ⟨e.2, he⟩

/-- With every send succeeding, the scan flushes the whole store. -/
theorem consumerScan_all_ok (store : ResultStore) :
    consumerScan store (fun _ => true) =
      { sent := store, store := [], connected := true } := by
  have hloop := scanLoop_all_ok store 0 (fun _ => true) (fun _ => rfl)
  simp only [consumerScan, hloop]
  exact congrArg (fun s => ScanState.mk store s true) (filter_not_self_keys store)

theorem scanLoop_take (store : ResultStore) (k : Nat) (sendOk : Nat → Bool) :
    (scanLoop store k sendOk).1 =
      store.take (scanLoop store k sendOk).1.length := by
  induction store generalizing k with
  | nil => rfl
  | cons e rest ih =>
    by_cases h : sendOk k
    · simp only [scanLoop, h, if_true, List.length_cons, List.take_succ_cons]
      exact congrArg (e :: ·) (ih (k + 1))
    · simp [scanLoop, h]

theorem scanLoop_fail (sendOk : Nat → Bool) :
    ∀ (store : ResultStore) (k i : Nat), i < store.length →
      (∀ j, j < i → sendOk (k + j) = true) → sendOk (k + i) = false →
      scanLoop store k sendOk = (store.take i, false)
  | [], _, i, hi, _, _ => absurd hi (Nat.not_lt_zero i)
  | e :: rest, k, 0, _, _, hfail => by
    have hf : sendOk k = false := by simpa using hfail
    simp [scanLoop, hf]
  | e :: rest, k, i + 1, hi, hok, hfail => by
    have hk : sendOk k = true := by simpa using hok 0 (Nat.succ_pos i)
    have hrest : scanLoop rest (k + 1) sendOk = (rest.take i, false) := by
      refine scanLoop_fail sendOk rest (k + 1) i (Nat.lt_of_succ_lt_succ hi) ?_ ?_
      · intro j hj
        have := hok (j + 1) (Nat.succ_lt_succ hj)
        simpa [Nat.add_assoc, Nat.add_comm 1 j] using this
      · simpa [Nat.add_assoc, Nat.add_comm 1 i] using hfail
    simp [scanLoop, hk, hrest]

theorem filter_keys_append (t d : ResultStore)
    (hdisj : ∀ e ∈ d, e.1 ∉ t.map Prod.fst) :
    (t ++ d).filter (fun e => !((t.map Prod.fst).contains e.1)) = d := by
  rw [List.filter_append, filter_not_self_keys t, List.nil_append,
    List.filter_eq_self]
  intro e he
  have hne : ¬ (t.map Prod.fst).contains e.1 = true := fun hc =>
    hdisj e he (List.mem_of_elem_eq_true hc)
  simp [Bool.not_eq_true] at hne
  simp [hne]

theorem consumerScan_fail (store : ResultStore) (sendOk : Nat → Bool) (i : Nat)
    (hi : i < store.length)
    (hok : ∀ j, j < i → sendOk j = true)
    (hfail : sendOk i = false)
    (hnd : (store.map Prod.fst).Nodup) :
    consumerScan store sendOk =
      { sent := store.take i, store := store.drop i, connected := false } := by
  have hloop : scanLoop store 0 sendOk = (store.take i, false) := by
    refine scanLoop_fail sendOk store 0 i hi ?_ ?_
    · intro j hj; simpa using hok j hj
    · simpa using hfail
  simp only [consumerScan, hloop]
  refine congrArg (fun s => ScanState.mk (store.take i) s false) ?_
  have hdisj : ∀ e ∈ store.drop i, e.1 ∉ (store.take i).map Prod.fst := by
    intro e he hmem
    have hmap : store.map Prod.fst =
        (store.take i).map Prod.fst ++ (store.drop i).map Prod.fst := by
      rw [← List.map_append, List.take_append_drop]
    rw [hmap] at hnd
    exact (List.disjoint_of_nodup_append hnd) hmem
      (List.mem_map_of_mem Prod.fst he)
  have h := filter_keys_append (store.take i) (store.drop i) hdisj
  rwa [List.take_append_drop] at h

theorem startCount_trace (batches : List (List Utt)) :
    startCount (workerTrace batches) = batches.length := by
  induction batches with
  | nil => rfl
  | cons b bs ih => simp [workerTrace, startCount, isStart, List.filter] at *; omega

theorem trace_single_flight : ∀ (batches : List (List Utt)) (n : Nat),
    startCount ((workerTrace batches).take n) ≤
      endCount ((workerTrace batches).take n) + 1
  | [], n => by simp [workerTrace, startCount, endCount]
  | b :: bs, 0 => by simp [startCount, endCount]
  | b :: bs, 1 => by simp [workerTrace, startCount, endCount, isStart, List.filter]
  | b :: bs, n + 2 => by
    have ih := trace_single_flight bs n
    simp [workerTrace, startCount, endCount, isStart, List.filter] at ih ⊢
    omega

theorem chunkLoop_all_ok (cs : List (List Int)) (k : Nat) (ackOk : Nat → Bool)
    (h : ∀ j, ackOk j = true) :
    chunkLoop cs k ackOk = (chunkEvents cs, true, k + cs.length) := by
  induction cs generalizing k with
  | nil => simp [chunkLoop, chunkEvents]
  | cons c cs ih =>
    simp [chunkLoop, chunkEvents, h, ih (k + 1)]
    omega

theorem producerRun_all_ok (ackOk : Nat → Bool) (h : ∀ j, ackOk j = true) :
    ∀ (frames : List Frame) (st : VadState) (k : Nat),
      (producerRun st frames k ackOk).events = specTrace st frames
  | [], st, k => rfl
  | f :: fs, st, k => by
    have hcl := chunkLoop_all_ok (vadFeed st f).2 k ackOk h
    have ih := producerRun_all_ok ackOk h fs (vadFeed st f).1
      (k + (vadFeed st f).2.length)
    simp [producerRun, hcl, specTrace, ih]

/-- C1: the claim states that a Dispatcher forwards to its session only the
entries whose Identity belongs to that session.  Counterexample: the consumer
of the session with id 0 scans a store holding one entry owned by session 1
and forwards it anyway — the loop at `stream_routes.py` lines 50 to 59 never
compares the key against the running session. -/
theorem C1_counterexample :
    ¬ (∀ e ∈ (consumerScan [((1, 0), "other")] (fun _ => true)).sent,
        sessionOf e.1 = 0) := by
  intro h
  have hm : ((1, 0), "other") ∈
      (consumerScan [((1, 0), "other")] (fun _ => true)).sent := by
    rw [consumerScan_all_ok]
    exact List.mem_singleton.mpr rfl
  exact Nat.one_ne_zero (h ((1, 0), "other") hm)

/-- C1 (amended): on every wake a session's consumer forwards every entry then
present in the shared Result Store to its own transport, regardless of which
session the Identity belongs to, and removes each forwarded entry; so when two
sessions' utterances are merged into one batch, the session whose consumer
scans first receives both texts. -/
theorem C1_amended_no_session_filter (store : ResultStore) :
    (consumerScan store (fun _ => true)).sent = store ∧
    (consumerScan store (fun _ => true)).store = [] := by
  rw [consumerScan_all_ok]
  exact ⟨rfl, rfl⟩

/-- C2: the claim states that results reach the transport strictly in ascending
sequence-number order, the Dispatcher withholding higher-sequence completions.
Counterexample: one session's utterances with sequence numbers 2 and 1 complete
out of order, so the store iteration order is [2, 1]; the consumer forwards
them in exactly that order, sequence 2 before sequence 1. -/
theorem C2_counterexample :
    ¬ (List.Pairwise (fun a b => seqOf a.1 ≤ seqOf b.1)
        (consumerScan [((0, 2), "b"), ((0, 1), "a")] (fun _ => true)).sent) := by
  intro h
  rw [consumerScan_all_ok] at h
  have := (List.pairwise_cons.mp h).1 ((0, 1), "a") (List.mem_singleton.mpr rfl)
  exact absurd this (by decide)

/-- C2 (amended): the consumer performs no per-session sequence buffering: each
scan forwards an initial segment of the Result Store in store (insertion)
order, so completions that were written out of sequence order are delivered
out of sequence order. -/
theorem C2_amended_store_order (store : ResultStore) (sendOk : Nat → Bool) :
    (consumerScan store sendOk).sent =
      store.take (consumerScan store sendOk).sent.length := by
  simpa only [consumerScan] using scanLoop_take store 0 sendOk

/-- C3: the claim states that after a session disconnects with utterances in
flight, once their batches complete no entry for its Identities remains in the
Result Store.  Counterexample: session 0 disconnects while Identity (0, 5) is
in flight; the worker later writes its entry; the teardown of `ws_asr` leaves
the store untouched, so the dead session's entry remains. -/
theorem C3_counterexample :
    (wsTeardown (resultsWrite [] ((0, 5), "late"))).2.filter
      (fun e => sessionOf e.1 == 0) ≠ [] := by
  decide

/-- C3 (amended): `ws_asr` has no teardown sweep — its finally block leaves the
Result Store unchanged — and within a consumer scan an entry disappears from
the store only when that scan sent it; entries of a disconnected session
therefore remain until some other live session's consumer forwards them. -/
theorem C3_amended_no_teardown_sweep (store : ResultStore) (sendOk : Nat → Bool) :
    (wsTeardown store).2 = store ∧
    (∀ e ∈ store, e ∉ (consumerScan store sendOk).store →
      e.1 ∈ (consumerScan store sendOk).sent.map Prod.fst) := by
  refine ⟨rfl, ?_⟩
  intro e he hnot
  by_contra hmem
  apply hnot
  simp only [consumerScan] at hmem ⊢
  rw [List.mem_filter]
  refine ⟨he, ?_⟩
  have : ¬ ((scanLoop store 0 sendOk).1.map Prod.fst).contains e.1 = true := by
    intro hc
    exact hmem (List.mem_of_elem_eq_true hc)
  simp [Bool.not_eq_true] at this
  simp [this]

theorem C3_amended_no_teardown_sweep_witness :
    (wsTeardown [((0, 1), "x")]).2 = [((0, 1), "x")] ∧
    (((0, 1), "x") : Identity × String).1 ∈
      ((consumerScan [((0, 1), "x")] (fun _ => true)).sent.map Prod.fst) := by
  refine ⟨(C3_amended_no_teardown_sweep [((0, 1), "x")] (fun _ => true)).1, ?_⟩
  refine (C3_amended_no_teardown_sweep [((0, 1), "x")] (fun _ => true)).2
    ((0, 1), "x") (List.mem_singleton.mpr rfl) ?_
  rw [consumerScan_all_ok]
  exact List.not_mem_nil _

/-- C4: if the inference call fails for a batch, every item of that batch
receives an explicit error outcome keyed by its Identity (no item is dropped:
the written entries are the map of the whole batch), and the worker loop does
not terminate: every batch of the run, including those after the failing one,
is processed. -/
theorem C4_batch_failure_contained
    (infer : List Utt → Except String (List String))
    (batches : List (List Utt)) (i : Nat) (b : List Utt) (e : String)
    (hb : batches[i]? = some b) (hfail : infer b = Except.error e) :
    (workerRun infer batches)[i]? =
      some (b.map (fun u => ((u.sid, u.seq), Outcome.err e))) ∧
    (workerRun infer batches).length = batches.length := by
  constructor
  · rw [workerRun, List.getElem?_map, hb]
    simp [processBatch, hfail]
  · simp [workerRun]

theorem C4_batch_failure_contained_witness :
    (workerRun inferFailsPairs
        [[⟨0, 0, [], 16000⟩], [⟨0, 1, [], 16000⟩, ⟨1, 0, [], 16000⟩],
         [⟨1, 1, [], 16000⟩]])[1]? =
      some [((0, 1), Outcome.err "boom"), ((1, 0), Outcome.err "boom")] ∧
    (workerRun inferFailsPairs
        [[⟨0, 0, [], 16000⟩], [⟨0, 1, [], 16000⟩, ⟨1, 0, [], 16000⟩],
         [⟨1, 1, [], 16000⟩]]).length = 3 := by
  have h := C4_batch_failure_contained inferFailsPairs
    [[⟨0, 0, [], 16000⟩], [⟨0, 1, [], 16000⟩, ⟨1, 0, [], 16000⟩],
     [⟨1, 1, [], 16000⟩]] 1 [⟨0, 1, [], 16000⟩, ⟨1, 0, [], 16000⟩] "boom"
    rfl rfl
  simpa using h

/-- C5: the application lifespan spawns exactly one batch worker task, the
worker starts exactly one inference call per batch, and no two inference calls
overlap: in every prefix of the worker trace, at most one call is in flight,
that is the number of started calls exceeds the number of returned calls by at
most one. -/
theorem C5_single_worker_single_flight (batches : List (List Utt)) :
    lifespanTasks.length = 1 ∧
    startCount (workerTrace batches) = batches.length ∧
    ∀ n, startCount ((workerTrace batches).take n) ≤
      endCount ((workerTrace batches).take n) + 1 :=
  ⟨rfl, startCount_trace batches, trace_single_flight batches⟩

/-- C6: evaluation of the code at the failing input.  One voiced frame of
samples [1, 2, 3] arrives, then the client disconnects.  The producer run
performed no enqueue (the VAD is still waiting for trailing silence), and the
session close flushes nothing: the final VAD state still buffers [1, 2, 3],
exactly what the flush the spec mandates would have emitted as one final
utterance.  The trailing audio is silently dropped. -/
theorem C6_trailing_audio_dropped :
    (producerRun vadInit [⟨true, [1, 2, 3]⟩] 0 (fun _ => true)).events =
      [PEvent.recvFrame ⟨true, [1, 2, 3]⟩] ∧
    vadFlushFinal
      (producerRun vadInit [⟨true, [1, 2, 3]⟩] 0 (fun _ => true)).vad =
      [[1, 2, 3]] :=
  ⟨rfl, rfl⟩

/-- C7: while the client stays connected (every acknowledgement send returns),
the producer trace is exactly the reference trace — every utterance the
segmenter emits is first enqueued on the Work Queue and then acknowledged,
before the next inbound frame is read — and every transcription notification
a consumer scan sends carries the text of exactly one Result Store entry. -/
theorem C7_enqueue_ack_order (st : VadState) (frames : List Frame)
    (ackOk sendOk : Nat → Bool) (store : ResultStore)
    (h : ∀ k, ackOk k = true) :
    (producerRun st frames 0 ackOk).events = specTrace st frames ∧
    ∀ m ∈ (consumerScan store sendOk).sent, m ∈ store := by
  refine ⟨producerRun_all_ok ackOk h frames st 0, ?_⟩
  intro m hm
  have hsent := scanLoop_take store 0 sendOk
  simp only [consumerScan] at hm
  rw [hsent] at hm
  exact List.take_subset _ _ hm

theorem C7_enqueue_ack_order_witness :
    (producerRun vadInit [burstFrame] 0 (fun _ => true)).events =
      specTrace vadInit [burstFrame] ∧
    (((0, 0), "t") : Identity × String) ∈ [(((0, 0) : Identity), "t")] := by
  have h := C7_enqueue_ack_order vadInit [burstFrame] (fun _ => true)
    (fun _ => true) [((0, 0), "t")] (fun _ => rfl)
  refine ⟨h.1, h.2 ((0, 0), "t") ?_⟩
  rw [consumerScan_all_ok]
  exact List.mem_singleton.mpr rfl

/-- C8: in every one-shot transcription path the code's extraction agrees with
the spec's description of it on every possible result value. -/
theorem C8_extraction_contract (r : PyVal) :
    extractText r = specExtractText r := by
  cases r with
  | tup xs =>
    cases xs with
    | nil => rfl
    | cons x rest =>
      cases x with
      | tup zs => rfl
      | lst ys => cases ys <;> rfl
      | obj t s => rfl
      | pstr s => rfl
      | pynone => rfl
  | lst xs => cases xs <;> rfl
  | obj t s => rfl
  | pstr s => rfl
  | pynone => rfl

/-- C9: whenever processing the request body raises — odd byte length, zero
sample rate — the one-shot endpoint responds with HTTP 422 whose detail is the
endpoint's label followed by the underlying exception's message, so the detail
contains that message and the endpoint neither crashes nor returns success. -/
theorem C9_body_errors_422 (label : String) (nbytes sampleRate : Nat)
    (inferRes : Except String String) (e : String)
    (h : processAudioBody nbytes sampleRate = Except.error e) :
    (transcribeEndpoint label nbytes sampleRate inferRes).status = 422 ∧
    (transcribeEndpoint label nbytes sampleRate inferRes).detail = label ++ e := by
  simp [transcribeEndpoint, h]

theorem C9_body_errors_422_witness :
    (transcribeEndpoint "Raw audio transcription failed: " 3 16000
        (Except.ok "hi")).status = 422 ∧
    (transcribeEndpoint "Raw audio transcription failed: " 3 16000
        (Except.ok "hi")).detail =
      "Raw audio transcription failed: " ++
        "buffer size must be a multiple of element size" :=
  C9_body_errors_422 "Raw audio transcription failed: " 3 16000 (Except.ok "hi")
    "buffer size must be a multiple of element size" rfl

/-- C10: within one consumer scan, an entry is removed from the shared Result
Store only if sending its text over the websocket completed without raising:
when the send at position i raises, the entry at position i and every entry
after it remain in the store, while the entries sent successfully before i are
removed.  The Nodup hypothesis holds because the store is a Python dict. -/
theorem C10_remove_only_sent (store : ResultStore) (sendOk : Nat → Bool) (i : Nat)
    (hi : i < store.length)
    (hok : ∀ j, j < i → sendOk j = true)
    (hfail : sendOk i = false)
    (hnd : (store.map Prod.fst).Nodup) :
    (consumerScan store sendOk).sent = store.take i ∧
    (consumerScan store sendOk).store = store.drop i := by
  rw [consumerScan_fail store sendOk i hi hok hfail hnd]
  exact ⟨rfl, rfl⟩

theorem C10_remove_only_sent_witness :
    (consumerScan [((0, 0), "a"), ((0, 1), "b"), ((0, 2), "c")]
        (fun k => k != 1)).sent = [((0, 0), "a")] ∧
    (consumerScan [((0, 0), "a"), ((0, 1), "b"), ((0, 2), "c")]
        (fun k => k != 1)).store = [((0, 1), "b"), ((0, 2), "c")] :=
  C10_remove_only_sent [((0, 0), "a"), ((0, 1), "b"), ((0, 2), "c")]
    (fun k => k != 1) 1 (by decide) (by decide) (by decide) (by decide)
